import Mathlib

/-!
# Fare server: loader and lookup

A shallow embedding of `server.js`: the worksheet loader `loadFareData`, the
caching middleware and the handlers of `/api/stops` and `/api/fare`.

Modelling conventions.

* A worksheet cell is `Option String`: `none` is a null-type cell, which
  `eachCell({ includeEmpty: false }, …)` skips, and `some t` is a cell whose
  rendered text (`cell.text`) is `t`.  A present cell may have the empty text:
  a formula cell without a cached result and a string cell holding `''` are
  both visited by `eachCell` and render as `''`.  A row is the list of its
  cells, the cell of column `c` at position `c - 1`; a worksheet is the list of
  its rows, row `r` at position `r - 1`, so that `rowCount` is the length of
  that list.
* The JavaScript builtin `Number(text)` is a parameter `toNumber`, whose result
  `none` stands for `NaN`.  Fares live in an arbitrary type `ν` with a zero; the
  two JavaScript zeros are identified.
* A request is handled atomically: the middleware and the handler selected by
  the route run to completion before the next request is looked at.
-/

namespace FareServer

/-! ## Worksheets -/

/-- A worksheet cell: `none` for a null-type cell, `some t` for rendered text `t`. -/
abbrev Cell := Option String

/-- A worksheet row; the cell of column `c` (1-based) sits at position `c - 1`. -/
abbrev Row := List Cell

/-- A worksheet; row `r` (1-based) sits at position `r - 1`. -/
structure Worksheet where
  rows : List Row
  deriving DecidableEq, Repr

/-- The worksheet property `rowCount`. -/
def Worksheet.rowCount (ws : Worksheet) : Nat := ws.rows.length

/-- The call `worksheet.getRow(i)`; a row that was never written has no cells. -/
def Worksheet.getRow (ws : Worksheet) (i : Nat) : Row := ws.rows.getD (i - 1) []

/-- Worker of `eachCell`: `col` is the column number of the head of the list. -/
def eachCellFrom {σ : Type} (cb : String → Nat → σ → σ) : Row → Nat → σ → σ
  | [], _, acc => acc
  | none :: cs, col, acc => eachCellFrom cb cs (col + 1) acc
  | some text :: cs, col, acc => eachCellFrom cb cs (col + 1) (cb text col acc)

/-- The call `row.eachCell({ includeEmpty: false }, cb)`: the callback runs on
every non-null cell, in ascending column order, with the cell's text and its
column number; the callback's effect is a transformer of the state `σ`. -/
def eachCell {σ : Type} (row : Row) (cb : String → Nat → σ → σ) (init : σ) : σ :=
  eachCellFrom cb row 1 init

/-! ## The loader -/

/-- The expression `text.replace(/\n/g, ' ')`. -/
def replaceNewlines (text : String) : String :=
  ⟨text.data.map (fun c => if c = '\n' then ' ' else c)⟩

/-- Header extraction (lines 31 to 38): the callback pushes the normalised text
of every visited cell whose column number exceeds 1. -/
def extractStops (ws : Worksheet) : List String :=
  eachCell (ws.getRow 1)
    (fun text colNumber stops =>
      if colNumber > 1 then stops ++ [replaceNewlines text] else stops) []

section Numeric

variable {ν : Type} [Zero ν] [DecidableEq ν]

/-- The expression `x || 0` on the result `x` of `Number(…)`: `NaN` and zero are
falsy and give `0`, every other number is kept. -/
def orZero : Option ν → ν
  | none => 0
  | some v => if v = 0 then 0 else v

/-- The inner callback loop (lines 44 to 49): one pushed number per visited
cell whose column number exceeds 1. -/
def rowData (toNumber : String → Option ν) (row : Row) : List ν :=
  eachCell row
    (fun text colNumber acc =>
      if colNumber > 1 then acc ++ [orZero (toNumber text)] else acc) []

/-- The loop `for (let i = 2; i <= worksheet.rowCount; i++)` started at row `i`
with `n` iterations left. -/
def faresLoop (toNumber : String → Option ν) (ws : Worksheet) :
    Nat → Nat → List (List ν) → List (List ν)
  | _, 0, fares => fares
  | i, n + 1, fares => faresLoop toNumber ws (i + 1) n (fares ++ [rowData toNumber (ws.getRow i)])

/-- Data extraction (lines 40 to 51): rows `2 .. rowCount`, one pushed row each. -/
def extractFares (toNumber : String → Option ν) (ws : Worksheet) : List (List ν) :=
  faresLoop toNumber ws 2 (ws.rowCount - 1) []

end Numeric

/-- The pair `{ stops, fares }` returned by `loadFareData`. -/
structure FareMatrix (ν : Type) where
  stops : List String
  fares : List (List ν)
  deriving DecidableEq, Repr

/-- The ways `loadFareData` throws. -/
inductive LoadError
  /-- `workbook.xlsx.readFile` rejected. -/
  | readFailed
  /-- `workbook.worksheets[0]` is undefined, so `worksheet.getRow` throws. -/
  | noWorksheet
  /-- `new Error('No data found in worksheet')`. -/
  | emptyData
  /-- `new Error('Stops and fares data mismatch in size')`. -/
  | shapeMismatch
  deriving DecidableEq, Repr

/-- The message of the error thrown by the two validation checks. -/
def LoadError.message : LoadError → Option String
  | .emptyData => some "No data found in worksheet"
  | .shapeMismatch => some "Stops and fares data mismatch in size"
  | _ => none

/-- What reading `fare_data.xlsx` gives at the time of a load. -/
inductive Source
  /-- The file cannot be read or is not a workbook. -/
  | unreadable
  /-- The file holds a workbook with these worksheets. -/
  | workbook (worksheets : List Worksheet)
  deriving DecidableEq, Repr

section Loader

variable {ν : Type} [Zero ν] [DecidableEq ν]

/-- The body of `loadFareData` from line 31 on, for the first worksheet. -/
def parseWorksheet (toNumber : String → Option ν) (ws : Worksheet) :
    Except LoadError (FareMatrix ν) :=
  let stops := extractStops ws
  let fares := extractFares toNumber ws
  if stops.length = 0 ∨ fares.length = 0 then
    .error .emptyData
  else if stops.length ≠ fares.length then
    .error .shapeMismatch
  else
    .ok { stops := stops, fares := fares }

/-- The function `loadFareData`; the `catch` block logs and rethrows, so every
error reaches the caller unchanged. -/
def loadFareData (toNumber : String → Option ν) : Source → Except LoadError (FareMatrix ν)
  | .unreadable => .error .readFailed
  | .workbook [] => .error .noWorksheet
  | .workbook (ws :: _) => parseWorksheet toNumber ws

end Loader

/-! ## The HTTP layer -/

/-- A value of `req.query`. -/
inductive QueryValue
  /-- The parameter is absent. -/
  | undefined
  /-- The parameter is a string. -/
  | str (s : String)
  /-- The parameter was repeated or bracketed: an array or an object. -/
  | structured
  deriving DecidableEq, Repr

/-- JavaScript truthiness of a query value: `undefined` and `''` are falsy. -/
def QueryValue.truthy : QueryValue → Bool
  | .undefined => false
  | .str s => s ≠ ""
  | .structured => true

/-- Worker of `indexOf`: `i` is the index of the head of the list. -/
def indexOfFrom (q : QueryValue) : List String → Nat → Option Nat
  | [], _ => none
  | s :: rest, i => if q = .str s then some i else indexOfFrom q rest (i + 1)

/-- The call `stops.indexOf(q)`: the first index holding a string strictly
equal to `q`; `none` stands for `-1`. -/
def indexOf (stops : List String) (q : QueryValue) : Option Nat :=
  indexOfFrom q stops 0

/-- The requests the server distinguishes. -/
inductive Request
  /-- `GET /api/stops`. -/
  | apiStops
  /-- `GET /api/fare` with `req.query.from` and `req.query.to`. -/
  | apiFare (from_ to_ : QueryValue)
  /-- `GET /api/download-excel`. -/
  | downloadExcel
  /-- Any request no route matches. -/
  | other
  deriving DecidableEq, Repr

/-- The responses the server gives. -/
inductive Response (ν : Type)
  /-- Status 200, body `stops`. -/
  | stopsJson (stops : List String)
  /-- Status 200, body `{ from, to, fare }`; `fare = none` is `undefined`. -/
  | fareJson (from_ to_ : QueryValue) (fare : Option ν)
  /-- Status 400, `Both from and to parameters are required`. -/
  | badRequest
  /-- Status 404, `Invalid stop name`. -/
  | invalidStop
  /-- Status 500, `Failed to load fare data`. -/
  | loadFailed
  /-- An uncaught `TypeError` in the handler: `fares[fromIndex]` is undefined. -/
  | typeError
  /-- The stream of the spreadsheet file. -/
  | fileStream
  /-- No route matched. -/
  | noRoute
  deriving DecidableEq, Repr

section Handlers

variable {ν : Type}

/-- The handler of `/api/stops`. -/
def stopsHandler (fareData : FareMatrix ν) : Response ν :=
  .stopsJson fareData.stops

/-- The handler of `/api/fare`. -/
def fareHandler (fareData : FareMatrix ν) (from_ to_ : QueryValue) : Response ν :=
  if !from_.truthy || !to_.truthy then
    .badRequest
  else
    match indexOf fareData.stops from_, indexOf fareData.stops to_ with
    | some fromIndex, some toIndex =>
      match fareData.fares[fromIndex]? with
      | none => .typeError
      | some row => .fareJson from_ to_ row[toIndex]?
    | _, _ => .invalidStop

/-- Route dispatch once `req.fareData` is set. -/
def route (fareData : FareMatrix ν) : Request → Response ν
  | .apiStops => stopsHandler fareData
  | .apiFare from_ to_ => fareHandler fareData from_ to_
  | .downloadExcel => .fileStream
  | .other => .noRoute

/-- The outcome of one request: the new value of `fareDataCache`, the response
and the number of calls of `loadFareData` made. -/
structure Outcome (ν : Type) where
  cache : Option (FareMatrix ν)
  response : Response ν
  loads : Nat
  deriving DecidableEq, Repr

variable [Zero ν] [DecidableEq ν]

/-- One request through the load middleware (lines 71 to 81) and the routes.
`src` is what the spreadsheet file holds when the request arrives. -/
def handleRequest (toNumber : String → Option ν) (src : Source)
    (fareDataCache : Option (FareMatrix ν)) (req : Request) : Outcome ν :=
  match fareDataCache with
  | some fareData => { cache := some fareData, response := route fareData req, loads := 0 }
  | none =>
    match loadFareData toNumber src with
    | .ok fareData => { cache := some fareData, response := route fareData req, loads := 1 }
    | .error _ => { cache := none, response := .loadFailed, loads := 1 }

/-- A run of the server: request `k` arrives when the file holds `src k`. -/
def serve (toNumber : String → Option ν) :
    Option (FareMatrix ν) → List (Source × Request) → Option (FareMatrix ν) × List (Outcome ν)
  | cache, [] => (cache, [])
  | cache, (src, req) :: rest =>
    let out := handleRequest toNumber src cache req
    let tail := serve toNumber out.cache rest
    (tail.1, out :: tail.2)

end Handlers

/-! ## A sample of `Number` for concrete runs -/

/-- Value of a string of decimal digits read left to right, `none` on any other
character. -/
def digitsValue : List Char → Nat → Option Nat
  | [], acc => some acc
  | c :: cs, acc => if c.isDigit then digitsValue cs (10 * acc + (c.toNat - 48)) else none

/-- A stand-in for `Number` on the texts of the sample tables: it agrees with
JavaScript on strings of decimal digits, on the empty string (which is `0`) and
on texts without any numeric reading such as `x` (which are `NaN`).  Signs,
fractions, exponents and surrounding white space are not covered and do not
occur in the samples; the general results hold for every `toNumber`. -/
def sampleNumber (text : String) : Option Int :=
  (digitsValue text.data 0).map Int.ofNat

/-! ## The words of the specification -/

/-- Spec: the texts of the non-empty cells of a row at column index > 1, in
ascending column order. -/
def nonEmptyAfterLabel (row : Row) : List String :=
  (row.enumFrom 1).filterMap (fun p => if 1 < p.1 then p.2 else none)

/-- Spec: the cell of row `r` and column `c`, both 1-based; a cell outside the
written area is empty. -/
def Worksheet.cellAt (ws : Worksheet) (r c : Nat) : Cell :=
  (ws.getRow r).getD (c - 1) none

/-- Spec: the rendered text of the cell of row `r` and column `c`. -/
def Worksheet.cellText (ws : Worksheet) (r c : Nat) : String :=
  (ws.cellAt r c).getD ""

/-- Spec: the name of header column `c`, after normalisation. -/
def Worksheet.headerName (ws : Worksheet) (c : Nat) : String :=
  replaceNewlines (ws.cellText 1 c)

/-- Spec: the worksheet in which the cell of row `r` and column `c` has its text
replaced by `t`. -/
def Worksheet.setText (ws : Worksheet) (r c : Nat) (t : String) : Worksheet :=
  ⟨ws.rows.set (r - 1) ((ws.getRow r).set (c - 1) (some t))⟩

/-- Spec: the position, in the row the loader builds, of the entry of the cell at
column `c`: the number of non-empty cells at columns `2 .. c - 1`. -/
def entryIndex (row : Row) (c : Nat) : Nat :=
  (nonEmptyAfterLabel (row.take (c - 1))).length

/-- Spec: worker of `collapseLineBreaks`; `inRun` tells that the character just
read was a newline. -/
def collapseFrom : Bool → List Char → List Char
  | _, [] => []
  | inRun, c :: cs =>
    if c = '\n' then
      if inRun then collapseFrom true cs else ' ' :: collapseFrom true cs
    else
      c :: collapseFrom false cs

/-- Spec: the text with every maximal run of newline characters collapsed to a
single space. -/
def collapseLineBreaks (text : String) : String :=
  ⟨collapseFrom false text.data⟩

/-- Spec: no two newline characters stand next to each other. -/
def noAdjacentNewlines : List Char → Bool
  | [] => true
  | [_] => true
  | a :: b :: cs => !(a = '\n' && b = '\n') && noAdjacentNewlines (b :: cs)

/-! ## Sample data -/

/-- A 2 × 2 fare table with header `A`, `B` after the label column. -/
def sampleSheet : Worksheet :=
  ⟨[[some "Shelter", some "A", some "B"],
    [some "A", some "0", some "5"],
    [some "B", some "7", some "0"]]⟩

/-- The matrix `loadFareData` builds from `sampleSheet`. -/
def sampleMatrix : FareMatrix Int := ⟨["A", "B"], [[0, 5], [7, 0]]⟩

/-- A table with two header stops whose first data row has a single fare cell. -/
def raggedSheet : Worksheet :=
  ⟨[[some "Shelter", some "A", some "B"],
    [some "A", some "0"],
    [some "B", some "7", some "0"]]⟩

/-- The matrix `loadFareData` builds from `raggedSheet`. -/
def raggedMatrix : FareMatrix Int := ⟨["A", "B"], [[0], [7, 0]]⟩

/-- A 1 × 1 table whose only header cell is present with empty text. -/
def emptyNameSheet : Worksheet :=
  ⟨[[some "Shelter", some ""],
    [some "A", some "5"]]⟩

/-- The matrix `loadFareData` builds from `emptyNameSheet`. -/
def emptyNameMatrix : FareMatrix Int := ⟨[""], [[5]]⟩

/-- A table with one stop whose data row has an empty cell at column 2 and the
fare at column 3. -/
def gapSheet : Worksheet :=
  ⟨[[some "Shelter", some "A"],
    [some "A", none, some "5"]]⟩

/-- The matrix `loadFareData` builds from `gapSheet`. -/
def gapMatrix : FareMatrix Int := ⟨["A"], [[5]]⟩

/-- The sample table with the text `x` in place of the fare from `A` to `B`. -/
def sampleSheetEdited : Worksheet := sampleSheet.setText 2 3 "x"

/-- A table with a header row and no data row. -/
def headerOnlySheet : Worksheet :=
  ⟨[[some "Shelter", some "A", some "B"]]⟩

/-- A table with three stops whose second data row has two fare cells. -/
def threeStopSheet : Worksheet :=
  ⟨[[some "Shelter", some "A", some "B", some "C"],
    [some "A", some "0", some "5", some "9"],
    [some "B", some "7", some "0"],
    [some "C", some "9", some "4", some "0"]]⟩

/-- The matrix `loadFareData` builds from `threeStopSheet`. -/
def threeStopMatrix : FareMatrix Int := ⟨["A", "B", "C"], [[0, 5, 9], [7, 0], [9, 4, 0]]⟩

/-- A table whose only header cell has two newlines in a row. -/
def doubleBreakSheet : Worksheet :=
  ⟨[[some "Shelter", some "a\n\nb"],
    [some "a", some "1"]]⟩

/-- The matrix `loadFareData` builds from `doubleBreakSheet`. -/
def doubleBreakMatrix : FareMatrix Int := ⟨["a  b"], [[1]]⟩

/-! ## Helper lemmas: the callbacks as list functions -/

theorem eachCellFrom_push {α : Type} (f : String → α) (row : Row) :
    ∀ (col : Nat) (acc : List α), 1 < col →
      eachCellFrom (fun text colNumber acc => if colNumber > 1 then acc ++ [f text] else acc)
        row col acc = acc ++ row.filterMap (fun c => c.map f) := by
  induction row with
  | nil => intro col acc _; simp [eachCellFrom]
  | cons c cs ih =>
    intro col acc hcol
    cases c with
    | none => simp [eachCellFrom, ih (col + 1) acc (by omega)]
    | some t => simp [eachCellFrom, ih (col + 1) _ (by omega), hcol]

theorem eachCell_push {α : Type} (f : String → α) (row : Row) :
    eachCell row (fun text colNumber acc => if colNumber > 1 then acc ++ [f text] else acc) []
      = row.tail.filterMap (fun c => c.map f) := by
  cases row with
  | nil => simp [eachCell, eachCellFrom]
  | cons c cs =>
    cases c with
    | none => simp [eachCell, eachCellFrom, eachCellFrom_push f cs 2 [] (by omega)]
    | some t => simp [eachCell, eachCellFrom, eachCellFrom_push f cs 2 [] (by omega)]

theorem filterMap_enumFrom_after (cs : Row) :
    ∀ k, 1 < k →
      (cs.enumFrom k).filterMap (fun p => if 1 < p.1 then p.2 else none) = cs.filterMap id := by
  induction cs with
  | nil => intro k _; simp
  | cons c cs ih =>
    intro k hk
    cases c with
    | none => simp [List.enumFrom, hk, ih (k + 1) (by omega)]
    | some t => simp [List.enumFrom, hk, ih (k + 1) (by omega)]

theorem nonEmptyAfterLabel_eq (row : Row) : nonEmptyAfterLabel row = row.tail.filterMap id := by
  cases row with
  | nil => simp [nonEmptyAfterLabel]
  | cons c cs => simp [nonEmptyAfterLabel, List.enumFrom, filterMap_enumFrom_after cs 2 (by omega)]

theorem filterMap_map_eq {α : Type} (f : String → α) (cs : Row) :
    cs.filterMap (fun c => c.map f) = (cs.filterMap id).map f := by
  induction cs with
  | nil => simp
  | cons c cs ih => cases c <;> simp [ih]

theorem extractStops_eq (ws : Worksheet) :
    extractStops ws = (nonEmptyAfterLabel (ws.getRow 1)).map replaceNewlines := by
  unfold extractStops
  rw [eachCell_push replaceNewlines, nonEmptyAfterLabel_eq, filterMap_map_eq]

section NumericLemmas

variable {ν : Type} [Zero ν] [DecidableEq ν]

theorem rowData_eq (toNumber : String → Option ν) (row : Row) :
    rowData toNumber row = (nonEmptyAfterLabel row).map (fun t => orZero (toNumber t)) := by
  unfold rowData
  rw [eachCell_push (fun t => orZero (toNumber t)), nonEmptyAfterLabel_eq, filterMap_map_eq]

theorem faresLoop_eq (toNumber : String → Option ν) (ws : Worksheet) :
    ∀ (n i : Nat) (fares : List (List ν)), 1 ≤ i → i - 1 + n ≤ ws.rows.length →
      faresLoop toNumber ws i n fares
        = fares ++ ((ws.rows.drop (i - 1)).take n).map (rowData toNumber) := by
  intro n
  induction n with
  | zero => intro i fares _ _; simp [faresLoop]
  | succ n ih =>
    intro i fares hi hlen
    have hlt : i - 1 < ws.rows.length := by omega
    rw [faresLoop, ih (i + 1) _ (by omega) (by omega)]
    have hdrop : ws.rows.drop (i - 1) = ws.rows[i - 1] :: ws.rows.drop (i + 1 - 1) := by
      have : i + 1 - 1 = i - 1 + 1 := by omega
      rw [this]
      exact List.drop_eq_getElem_cons hlt
    have hget : ws.getRow i = ws.rows[i - 1] := by
      simp [Worksheet.getRow, List.getD, List.getElem?_eq_getElem hlt]
    rw [hdrop, hget]
    simp

theorem extractFares_eq (toNumber : String → Option ν) (ws : Worksheet) :
    extractFares toNumber ws = ws.rows.tail.map (rowData toNumber) := by
  unfold extractFares Worksheet.rowCount
  by_cases h0 : ws.rows.length = 0
  · have hnil : ws.rows = [] := List.length_eq_zero.mp h0
    simp [hnil, faresLoop]
  · have h := faresLoop_eq toNumber ws (ws.rows.length - 1) 2 [] (by decide)
      (by show 2 - 1 + (ws.rows.length - 1) ≤ ws.rows.length; omega)
    rw [h]
    simp [List.take_of_length_le]

theorem extractFares_length (toNumber : String → Option ν) (ws : Worksheet) :
    (extractFares toNumber ws).length = ws.rowCount - 1 := by
  simp [extractFares_eq, Worksheet.rowCount]

theorem extractFares_getElem? (toNumber : String → Option ν) (ws : Worksheet) (r : Nat)
    (hr : r + 1 < ws.rowCount) :
    (extractFares toNumber ws)[r]? = some (rowData toNumber (ws.getRow (r + 2))) := by
  have hlt : r + 1 < ws.rows.length := hr
  rw [extractFares_eq]
  simp [Worksheet.getRow, List.getD, List.getElem?_eq_getElem hlt, List.getElem?_map]

end NumericLemmas

/-! ## Helper lemmas: the loader and `indexOf` -/

section LoaderLemmas

variable {ν : Type} [Zero ν] [DecidableEq ν]

theorem extractStops_length (ws : Worksheet) :
    (extractStops ws).length = (nonEmptyAfterLabel (ws.getRow 1)).length := by
  simp [extractStops_eq]

theorem parseWorksheet_ok (toNumber : String → Option ν) (ws : Worksheet) (M : FareMatrix ν)
    (h : parseWorksheet toNumber ws = .ok M) :
    M.stops = extractStops ws ∧ M.fares = extractFares toNumber ws ∧
      M.stops.length = M.fares.length ∧ 0 < M.stops.length := by
  unfold parseWorksheet at h
  simp only at h
  split at h
  · cases h
  · split at h
    · cases h
    · rename_i h1 h2
      injection h with h
      subst h
      refine ⟨rfl, rfl, ?_, ?_⟩
      · simpa using h2
      · simp only [not_or] at h1
        exact Nat.pos_of_ne_zero h1.1

theorem loadFareData_ok (toNumber : String → Option ν) (src : Source) (M : FareMatrix ν)
    (h : loadFareData toNumber src = .ok M) :
    ∃ ws rest, src = .workbook (ws :: rest) ∧ parseWorksheet toNumber ws = .ok M := by
  cases src with
  | unreadable => simp [loadFareData] at h
  | workbook l =>
    cases l with
    | nil => simp [loadFareData] at h
    | cons ws rest => exact ⟨ws, rest, rfl, h⟩

theorem loadFareData_square (toNumber : String → Option ν) (src : Source) (M : FareMatrix ν)
    (h : loadFareData toNumber src = .ok M) : M.stops.length = M.fares.length := by
  obtain ⟨ws, rest, _, hp⟩ := loadFareData_ok toNumber src M h
  exact (parseWorksheet_ok toNumber ws M hp).2.2.1

end LoaderLemmas

theorem indexOfFrom_least (s : String) (l : List String) :
    ∀ (k i : Nat), l[i]? = some s → (∀ j, j < i → l[j]? ≠ some s) →
      indexOfFrom (.str s) l k = some (k + i) := by
  induction l with
  | nil => intro k i h; simp at h
  | cons x xs ih =>
    intro k i h hmin
    cases i with
    | zero =>
      simp at h
      simp [indexOfFrom, h]
    | succ i =>
      have hx : x ≠ s := by
        intro hxs
        exact hmin 0 (by omega) (by simp [hxs])
      have hne : ¬ (QueryValue.str s = QueryValue.str x) := by
        intro hq
        injection hq with hq
        exact hx hq.symm
      simp only [indexOfFrom, hne, if_false]
      rw [ih (k + 1) i (by simpa using h) (fun j hj => by simpa using hmin (j + 1) (by omega))]
      congr 1
      omega

theorem indexOfFrom_none (q : QueryValue) (l : List String) :
    ∀ k, indexOfFrom q l k = none ↔ ∀ s, s ∈ l → q ≠ .str s := by
  induction l with
  | nil => intro k; simp [indexOfFrom]
  | cons x xs ih =>
    intro k
    by_cases hq : q = .str x
    · simp [indexOfFrom, hq]
    · simp only [indexOfFrom, hq, if_false, ih (k + 1), List.mem_cons]
      constructor
      · intro h s hs
        rcases hs with rfl | hs
        · exact hq
        · exact h s hs
      · intro h s hs
        exact h s (Or.inr hs)

theorem indexOfFrom_lt (q : QueryValue) (l : List String) :
    ∀ (k i : Nat), indexOfFrom q l k = some i → k ≤ i ∧ i < k + l.length := by
  induction l with
  | nil => intro k i h; simp [indexOfFrom] at h
  | cons x xs ih =>
    intro k i h
    by_cases hq : q = .str x
    · simp [indexOfFrom, hq] at h
      subst h
      simp
    · simp only [indexOfFrom, hq, if_false] at h
      have := ih (k + 1) i h
      simp only [List.length_cons]
      omega

theorem indexOf_lt (stops : List String) (q : QueryValue) (i : Nat)
    (h : indexOf stops q = some i) : i < stops.length := by
  have := indexOfFrom_lt q stops 0 i h
  omega

theorem indexOf_least (stops : List String) (s : String) (i : Nat)
    (hi : stops[i]? = some s) (hmin : ∀ j, j < i → stops[j]? ≠ some s) :
    indexOf stops (.str s) = some i := by
  have := indexOfFrom_least s stops 0 i hi hmin
  simpa [indexOf] using this

theorem indexOf_none (stops : List String) (q : QueryValue) :
    indexOf stops q = none ↔ ∀ s, s ∈ stops → q ≠ .str s :=
  indexOfFrom_none q stops 0

/-- The handler's answer once both parameters are truthy strings found at their
first positions `i` and `j` and row `i` exists. -/
theorem fareHandler_found {ν : Type} (M : FareMatrix ν) (a b : String) (i j : Nat)
    (row : List ν) (ha : a ≠ "") (hb : b ≠ "")
    (hi : indexOf M.stops (.str a) = some i) (hj : indexOf M.stops (.str b) = some j)
    (hrow : M.fares[i]? = some row) :
    fareHandler M (.str a) (.str b) = .fareJson (.str a) (.str b) row[j]? := by
  simp [fareHandler, QueryValue.truthy, ha, hb, hi, hj, hrow]

/-! ## Helper lemmas: rows without gaps -/

theorem getD_tail_cell (row : Row) (q : Nat) :
    row.tail.getD q none = row.getD (q + 1) none := by
  cases row <;> simp [List.getD]

theorem filterMap_id_getElem?_of_full (cs : Row) :
    ∀ p, (∀ q, q ≤ p → cs.getD q none ≠ none) → (cs.filterMap id)[p]? = cs.getD p none := by
  induction cs with
  | nil => intro p h; exact absurd (by simp) (h 0 (Nat.zero_le p))
  | cons c cs ih =>
    intro p h
    cases c with
    | none => exact absurd (by simp) (h 0 (Nat.zero_le p))
    | some t =>
      cases p with
      | zero => simp
      | succ p =>
        have := ih p (fun q hq => by simpa using h (q + 1) (by omega))
        simpa using this

theorem filterMap_id_length_of_full (cs : Row) :
    ∀ n, (∀ q, q < n → cs.getD q none ≠ none) → (∀ q, n ≤ q → cs.getD q none = none) →
      (cs.filterMap id).length = n := by
  induction cs with
  | nil =>
    intro n hfull _
    cases n with
    | zero => simp
    | succ n => exact absurd (by simp) (hfull 0 (by omega))
  | cons c cs ih =>
    intro n hfull hnone
    cases n with
    | zero =>
      have hc : c = none := by simpa using hnone 0 (by omega)
      have := ih 0 (fun q hq => absurd hq (Nat.not_lt_zero q))
        (fun q _ => by simpa using hnone (q + 1) (by omega))
      simp [hc, this]
    | succ n =>
      cases c with
      | none => exact absurd (by simp) (hfull 0 (by omega))
      | some t =>
        have := ih n (fun q hq => by simpa using hfull (q + 1) (by omega))
          (fun q hq => by simpa using hnone (q + 1) (by omega))
        simp [this]

theorem nonEmptyAfterLabel_getElem? (row : Row) (p : Nat)
    (h : ∀ c, 2 ≤ c → c ≤ p + 2 → row.getD (c - 1) none ≠ none) :
    (nonEmptyAfterLabel row)[p]? = row.getD (p + 1) none := by
  rw [nonEmptyAfterLabel_eq, filterMap_id_getElem?_of_full, getD_tail_cell]
  intro q hq
  rw [getD_tail_cell]
  exact h (q + 2) (by omega) (by omega)

theorem nonEmptyAfterLabel_length (row : Row) (n : Nat)
    (hfull : ∀ c, 2 ≤ c → c ≤ n + 1 → row.getD (c - 1) none ≠ none)
    (hnone : ∀ c, n + 1 < c → row.getD (c - 1) none = none) :
    (nonEmptyAfterLabel row).length = n := by
  rw [nonEmptyAfterLabel_eq]
  apply filterMap_id_length_of_full
  · intro q hq
    rw [getD_tail_cell]
    exact hfull (q + 2) (by omega) (by omega)
  · intro q hq
    rw [getD_tail_cell]
    exact hnone (q + 2) (by omega)

theorem map_of_ne_none {α : Type} (f : String → α) (o : Cell) (h : o ≠ none) :
    o.map f = some (f (o.getD "")) := by
  cases o with
  | none => exact absurd rfl h
  | some t => rfl

section FullTable

variable {ν : Type} [Zero ν] [DecidableEq ν]

theorem parseWorksheet_of_counts (toNumber : String → Option ν) (ws : Worksheet)
    (hkm : (nonEmptyAfterLabel (ws.getRow 1)).length = ws.rowCount - 1)
    (hk : 1 ≤ (nonEmptyAfterLabel (ws.getRow 1)).length) :
    parseWorksheet toNumber ws
      = .ok { stops := extractStops ws, fares := extractFares toNumber ws } := by
  have h1 := extractStops_length ws
  have h2 := extractFares_length toNumber ws
  unfold parseWorksheet
  simp only
  rw [if_neg (by omega), if_neg (by omega)]

theorem extractStops_getElem?_of_full (ws : Worksheet) (p : Nat)
    (h : ∀ c, 2 ≤ c → c ≤ p + 2 → ws.cellAt 1 c ≠ none) :
    (extractStops ws)[p]? = some (ws.headerName (p + 2)) := by
  rw [extractStops_eq, List.getElem?_map, nonEmptyAfterLabel_getElem? _ p h]
  exact map_of_ne_none replaceNewlines _ (h (p + 2) (by omega) (by omega))

theorem rowData_getElem?_of_full (toNumber : String → Option ν) (ws : Worksheet) (r q : Nat)
    (h : ∀ c, 2 ≤ c → c ≤ q + 2 → ws.cellAt r c ≠ none) :
    (rowData toNumber (ws.getRow r))[q]? = some (orZero (toNumber (ws.cellText r (q + 2)))) := by
  rw [rowData_eq, List.getElem?_map, nonEmptyAfterLabel_getElem? _ q h]
  exact map_of_ne_none (fun t => orZero (toNumber t)) _ (h (q + 2) (by omega) (by omega))

end FullTable

/-! ## Helper lemmas: replacing the text of a cell -/

theorem filterMap_id_set (cs : Row) :
    ∀ (p : Nat) (t u : String), cs[p]? = some (some t) →
      (cs.set p (some u)).filterMap id
          = (cs.filterMap id).set ((cs.take p).filterMap id).length u ∧
        (cs.filterMap id)[((cs.take p).filterMap id).length]? = some t := by
  induction cs with
  | nil => intro p t u h; simp at h
  | cons c cs ih =>
    intro p t u h
    cases p with
    | zero =>
      simp at h
      subst h
      simp
    | succ p =>
      have h2 : cs[p]? = some (some t) := by simpa using h
      obtain ⟨ih1, ih2⟩ := ih p t u h2
      cases c with
      | none => simpa using ⟨ih1, ih2⟩
      | some v => simpa using ⟨ih1, ih2⟩

theorem entryIndex_eq (row : Row) (c : Nat) (hc : 2 ≤ c) :
    entryIndex row c = ((row.tail.take (c - 2)).filterMap id).length := by
  obtain ⟨d, rfl⟩ : ∃ d, c = d + 2 := ⟨c - 2, by omega⟩
  unfold entryIndex
  rw [nonEmptyAfterLabel_eq]
  cases row <;> simp

theorem tail_set_succ {α : Type} (l : List α) (i : Nat) (x : α) :
    (l.set (i + 1) x).tail = l.tail.set i x := by
  cases l <;> simp

theorem nonEmptyAfterLabel_set (row : Row) (c : Nat) (t u : String) (hc : 2 ≤ c)
    (hcell : row.getD (c - 1) none = some t) :
    nonEmptyAfterLabel (row.set (c - 1) (some u))
        = (nonEmptyAfterLabel row).set (entryIndex row c) u ∧
      (nonEmptyAfterLabel row)[entryIndex row c]? = some t := by
  obtain ⟨d, rfl⟩ : ∃ d, c = d + 2 := ⟨c - 2, by omega⟩
  have hget : row.tail[d]? = some (some t) := by
    have h1 : row.tail.getD d none = some t := by
      rw [getD_tail_cell]
      exact hcell
    rw [List.getD_eq_getElem?_getD] at h1
    cases hx : row.tail[d]? with
    | none => simp [hx] at h1
    | some x =>
      simp [hx] at h1
      rw [h1]
  obtain ⟨h1, h2⟩ := filterMap_id_set row.tail d t u hget
  rw [entryIndex_eq row (d + 2) (by omega), nonEmptyAfterLabel_eq, nonEmptyAfterLabel_eq]
  have : d + 2 - 1 = d + 1 := by omega
  rw [this, tail_set_succ]
  exact ⟨h1, h2⟩

theorem getRow_setText_ne (ws : Worksheet) (r c i : Nat) (u : String)
    (hr : 1 ≤ r) (hi : 1 ≤ i) (hne : i ≠ r) :
    (ws.setText r c u).getRow i = ws.getRow i := by
  have : r - 1 ≠ i - 1 := by omega
  simp [Worksheet.getRow, Worksheet.setText, List.getElem?_set_ne this]

theorem rowCount_setText (ws : Worksheet) (r c : Nat) (u : String) :
    (ws.setText r c u).rowCount = ws.rowCount := by
  simp [Worksheet.rowCount, Worksheet.setText]

theorem extractStops_setText (ws : Worksheet) (r c : Nat) (u : String) (hr : 2 ≤ r) :
    extractStops (ws.setText r c u) = extractStops ws := by
  unfold extractStops
  rw [getRow_setText_ne ws r c 1 u (by omega) (by omega) (by omega)]

section SetTextFares

variable {ν : Type} [Zero ν] [DecidableEq ν]

theorem rowData_set (toNumber : String → Option ν) (row : Row) (c : Nat) (t u : String)
    (hc : 2 ≤ c) (hcell : row.getD (c - 1) none = some t) :
    rowData toNumber (row.set (c - 1) (some u))
        = (rowData toNumber row).set (entryIndex row c) (orZero (toNumber u)) ∧
      (rowData toNumber row)[entryIndex row c]? = some (orZero (toNumber t)) := by
  obtain ⟨h1, h2⟩ := nonEmptyAfterLabel_set row c t u hc hcell
  rw [rowData_eq, rowData_eq, h1]
  exact ⟨by simp, by simp [h2]⟩

theorem extractFares_setText (toNumber : String → Option ν) (ws : Worksheet) (r c : Nat)
    (u : String) (hr : 2 ≤ r) :
    extractFares toNumber (ws.setText r c u)
      = (extractFares toNumber ws).set (r - 2)
          (rowData toNumber ((ws.getRow r).set (c - 1) (some u))) := by
  obtain ⟨e, rfl⟩ : ∃ e, r = e + 2 := ⟨r - 2, by omega⟩
  rw [extractFares_eq, extractFares_eq]
  have h1 : e + 2 - 1 = e + 1 := by omega
  have h2 : e + 2 - 2 = e := by omega
  simp only [Worksheet.setText, h1, h2, tail_set_succ, List.map_set]

end SetTextFares

theorem sampleSheet_loads :
    loadFareData sampleNumber (.workbook [sampleSheet]) = .ok sampleMatrix := by rfl

theorem raggedSheet_loads :
    loadFareData sampleNumber (.workbook [raggedSheet]) = .ok raggedMatrix := by rfl

theorem sampleSheet_width (c : Nat) (hc : 2 + 1 < c) : sampleSheet.cellAt 1 c = none := by
  have : (sampleSheet.getRow 1).length ≤ c - 1 := by
    show 3 ≤ c - 1
    omega
  exact List.getD_eq_default _ _ this

theorem sampleSheet_full (r c : Nat) (hr1 : 1 ≤ r) (hr : r ≤ 2 + 1) (hc2 : 2 ≤ c)
    (hc : c ≤ 2 + 1) : sampleSheet.cellAt r c ≠ none := by
  interval_cases r <;> interval_cases c <;> decide

theorem sampleSheet_distinct (a b : Nat) (ha2 : 2 ≤ a) (ha : a ≤ 2 + 1) (hb2 : 2 ≤ b)
    (hb : b ≤ 2 + 1) (h : sampleSheet.headerName a = sampleSheet.headerName b) : a = b := by
  interval_cases a <;> interval_cases b <;> first | rfl | exact absurd h (by decide)

theorem sampleSheet_names (c : Nat) (hc2 : 2 ≤ c) (hc : c ≤ 2 + 1) :
    sampleSheet.headerName c ≠ "" := by
  interval_cases c <;> decide

theorem gapSheet_loads :
    loadFareData sampleNumber (.workbook [gapSheet]) = .ok gapMatrix := by rfl

theorem rowCount_of_cellAt (ws : Worksheet) (r c : Nat) (t : String) (hr : 1 ≤ r)
    (hcell : ws.cellAt r c = some t) : r ≤ ws.rowCount := by
  by_contra hlt
  have hlen : ws.rows.length ≤ r - 1 := by
    unfold Worksheet.rowCount at hlt
    omega
  have hrow : ws.getRow r = [] := List.getD_eq_default _ _ hlen
  simp [Worksheet.cellAt, hrow] at hcell

/-! ## Helper lemmas: the validation as a function of the two counts -/

section Validation

variable {ν : Type} [Zero ν] [DecidableEq ν]

theorem parseWorksheet_eq (toNumber : String → Option ν) (ws : Worksheet) :
    parseWorksheet toNumber ws
      = if (nonEmptyAfterLabel (ws.getRow 1)).length = 0 ∨ ws.rowCount - 1 = 0 then
          .error .emptyData
        else if (nonEmptyAfterLabel (ws.getRow 1)).length ≠ ws.rowCount - 1 then
          .error .shapeMismatch
        else
          .ok { stops := extractStops ws, fares := extractFares toNumber ws } := by
  simp only [parseWorksheet, extractStops_length, extractFares_length]

theorem parseWorksheet_error_of_counts (toNumber : String → Option ν) (ws1 ws2 : Worksheet)
    (hk : (nonEmptyAfterLabel (ws1.getRow 1)).length = (nonEmptyAfterLabel (ws2.getRow 1)).length)
    (hm : ws1.rowCount = ws2.rowCount) (e : LoadError)
    (h : parseWorksheet toNumber ws1 = .error e) :
    parseWorksheet toNumber ws2 = .error e := by
  rw [parseWorksheet_eq] at h ⊢
  rw [hk, hm] at h
  split_ifs at h ⊢
  · exact h
  · exact h

theorem parseWorksheet_ok_of_counts (toNumber : String → Option ν) (ws1 ws2 : Worksheet)
    (hk : (nonEmptyAfterLabel (ws1.getRow 1)).length = (nonEmptyAfterLabel (ws2.getRow 1)).length)
    (hm : ws1.rowCount = ws2.rowCount)
    (h : ∃ M, parseWorksheet toNumber ws1 = .ok M) :
    ∃ M, parseWorksheet toNumber ws2 = .ok M := by
  obtain ⟨M, hM⟩ := h
  rw [parseWorksheet_eq] at hM ⊢
  rw [hk, hm] at hM
  split_ifs at hM ⊢
  exact ⟨_, rfl⟩

theorem loaded_row_length (toNumber : String → Option ν) (ws : Worksheet) (M : FareMatrix ν)
    (h : parseWorksheet toNumber ws = .ok M) (r : Nat) (hr : r < M.fares.length) :
    ∃ row, M.fares[r]? = some row ∧
      row.length = (nonEmptyAfterLabel (ws.getRow (r + 2))).length := by
  obtain ⟨_, hf, _, _⟩ := parseWorksheet_ok toNumber ws M h
  have hr2 : r + 1 < ws.rowCount := by
    rw [hf, extractFares_length] at hr
    omega
  refine ⟨rowData toNumber (ws.getRow (r + 2)), ?_, by simp [rowData_eq]⟩
  rw [hf]
  exact extractFares_getElem? toNumber ws r hr2

end Validation

theorem threeStopSheet_loads :
    loadFareData sampleNumber (.workbook [threeStopSheet]) = .ok threeStopMatrix := by rfl

theorem doubleBreakSheet_loads :
    loadFareData sampleNumber (.workbook [doubleBreakSheet]) = .ok doubleBreakMatrix := by rfl

/-! ## Helper lemmas: newlines in stop names -/

theorem replaceNewlines_no_newline (t : String) : '\n' ∉ (replaceNewlines t).data := by
  intro h
  simp only [replaceNewlines, List.mem_map] at h
  obtain ⟨c, _, hc⟩ := h
  by_cases hn : c = '\n'
  · rw [if_pos hn] at hc
    exact absurd hc (by decide)
  · rw [if_neg hn] at hc
    exact hn hc

theorem replaceNewlines_run (before after : List Char) (k : Nat) :
    replaceNewlines ⟨before ++ List.replicate k '\n' ++ after⟩
      = ⟨(replaceNewlines ⟨before⟩).data ++ List.replicate k ' '
          ++ (replaceNewlines ⟨after⟩).data⟩ := by
  simp [replaceNewlines, List.map_append, List.map_replicate]

theorem noAdjacentNewlines_tail (c : Char) (cs : List Char)
    (h : noAdjacentNewlines (c :: cs) = true) : noAdjacentNewlines cs = true := by
  cases cs with
  | nil => rfl
  | cons b rest =>
    simp only [noAdjacentNewlines, Bool.and_eq_true] at h
    exact h.2

theorem collapseFrom_eq_map (cs : List Char) :
    noAdjacentNewlines cs = true →
      ∀ inRun : Bool, (inRun = true → cs.head? ≠ some '\n') →
        collapseFrom inRun cs = cs.map (fun c => if c = '\n' then ' ' else c) := by
  induction cs with
  | nil => intro _ _ _; rfl
  | cons c cs ih =>
    intro hadj inRun hrun
    have htail := noAdjacentNewlines_tail c cs hadj
    by_cases hc : c = '\n'
    · have hfalse : inRun = false := by
        cases inRun with
        | false => rfl
        | true => exact absurd (by simp [hc]) (hrun rfl)
      have hnext : cs.head? ≠ some '\n' := by
        cases cs with
        | nil => simp
        | cons b rest =>
          simp only [noAdjacentNewlines, Bool.and_eq_true, Bool.not_eq_true',
            Bool.and_eq_false_iff, decide_eq_false_iff_not] at hadj
          intro hb
          simp only [List.head?_cons, Option.some.injEq] at hb
          rcases hadj.1 with h1 | h1
          · exact h1 hc
          · exact h1 hb
      subst hfalse
      simp only [collapseFrom, hc, if_true, List.map_cons]
      rw [ih htail true (fun _ => hnext)]
      simp
    · simp only [collapseFrom, hc, if_false, List.map_cons]
      rw [ih htail false (fun h => by cases h)]

/-! ## The claims -/

section Claims

variable {ν : Type} [Zero ν] [DecidableEq ν]

/-- C1: for a matrix produced by a successful load and non-empty names `a`, `b`
whose least indices in `stops` are `i` and `j`, the `/api/fare` handler answers
`{from, to, fare}` with `fare = fares[i][j]`; nothing is assumed about `a ≠ b`,
so the diagonal cell is returned as it is, and later duplicates are not read. -/
theorem fare_is_cell_at_first_indices (toNumber : String → Option ν) (src : Source)
    (M : FareMatrix ν) (a b : String) (i j : Nat)
    (hload : loadFareData toNumber src = .ok M)
    (ha : a ≠ "") (hb : b ≠ "")
    (hi : M.stops[i]? = some a) (hi_min : ∀ k, k < i → M.stops[k]? ≠ some a)
    (hj : M.stops[j]? = some b) (hj_min : ∀ k, k < j → M.stops[k]? ≠ some b) :
    ∃ row, M.fares[i]? = some row ∧
      fareHandler M (.str a) (.str b) = .fareJson (.str a) (.str b) row[j]? := by
  have hsq := loadFareData_square toNumber src M hload
  have hilt : i < M.fares.length := by
    have : i < M.stops.length := by
      rcases List.getElem?_eq_some_iff.mp hi with ⟨h, _⟩
      exact h
    omega
  refine ⟨M.fares[i], List.getElem?_eq_getElem hilt, ?_⟩
  exact fareHandler_found M a b i j _ ha hb (indexOf_least _ _ _ hi hi_min)
    (indexOf_least _ _ _ hj hj_min) (List.getElem?_eq_getElem hilt)

/-- Witness of C1: the sample table gives `getFare("A","B") = 5` and
`getFare("B","A") = 7`. -/
theorem fare_is_cell_at_first_indices_witness :
    (∃ row, sampleMatrix.fares[0]? = some row ∧
      fareHandler sampleMatrix (.str "A") (.str "B")
        = .fareJson (.str "A") (.str "B") row[1]?) ∧
    fareHandler sampleMatrix (.str "A") (.str "B") = .fareJson (.str "A") (.str "B") (some 5) ∧
    fareHandler sampleMatrix (.str "B") (.str "A") = .fareJson (.str "B") (.str "A") (some 7) :=
  ⟨fare_is_cell_at_first_indices sampleNumber (.workbook [sampleSheet]) sampleMatrix "A" "B" 0 1
      rfl (by decide) (by decide) rfl (fun k hk => absurd hk (Nat.not_lt_zero k)) rfl
      (fun k hk => by
        have hk0 : k = 0 := by omega
        subst hk0
        decide),
    by decide, by decide⟩

/-- C2: with `k` the number of non-empty header cells at column index > 1 and
`m = rowCount - 1` the number of rows after row 1, the load fails with
EmptyData exactly when `k = 0` or `m = 0`, fails with ShapeMismatch exactly when
`k > 0`, `m > 0` and `k ≠ m`, and succeeds exactly when `k = m ≥ 1`, in which
case the matrix has `k` stops and `k` rows. -/
theorem load_outcome_by_counts (toNumber : String → Option ν) (ws : Worksheet)
    (rest : List Worksheet) :
    (loadFareData toNumber (.workbook (ws :: rest)) = .error .emptyData ↔
      (nonEmptyAfterLabel (ws.getRow 1)).length = 0 ∨ ws.rowCount - 1 = 0) ∧
    (loadFareData toNumber (.workbook (ws :: rest)) = .error .shapeMismatch ↔
      0 < (nonEmptyAfterLabel (ws.getRow 1)).length ∧ 0 < ws.rowCount - 1 ∧
        (nonEmptyAfterLabel (ws.getRow 1)).length ≠ ws.rowCount - 1) ∧
    ((∃ M, loadFareData toNumber (.workbook (ws :: rest)) = .ok M) ↔
      (nonEmptyAfterLabel (ws.getRow 1)).length = ws.rowCount - 1 ∧
        1 ≤ (nonEmptyAfterLabel (ws.getRow 1)).length) ∧
    (∀ M, loadFareData toNumber (.workbook (ws :: rest)) = .ok M →
      M.stops.length = (nonEmptyAfterLabel (ws.getRow 1)).length ∧
        M.fares.length = (nonEmptyAfterLabel (ws.getRow 1)).length) ∧
    LoadError.emptyData.message = some "No data found in worksheet" ∧
    LoadError.shapeMismatch.message = some "Stops and fares data mismatch in size" := by
  have hk := extractStops_length ws
  have hm := extractFares_length toNumber ws
  simp only [loadFareData, parseWorksheet]
  split_ifs with h1 h2
  · rw [hk, hm] at h1
    refine ⟨?_, ?_, ?_, ?_, rfl, rfl⟩
    · exact ⟨fun _ => h1, fun _ => rfl⟩
    · exact ⟨(fun h => by cases h), fun h => by omega⟩
    · refine ⟨fun h => ?_, fun h => by omega⟩
      obtain ⟨M, hM⟩ := h
      cases hM
    · intro M hM
      cases hM
  · rw [hk, hm] at h1 h2
    refine ⟨?_, ?_, ?_, ?_, rfl, rfl⟩
    · exact ⟨(fun h => by cases h), fun h => absurd h h1⟩
    · exact ⟨(fun _ => by omega), fun _ => rfl⟩
    · refine ⟨fun h => ?_, fun h => by omega⟩
      obtain ⟨M, hM⟩ := h
      cases hM
    · intro M hM
      cases hM
  · rw [hk, hm] at h1 h2
    refine ⟨?_, ?_, ?_, ?_, rfl, rfl⟩
    · exact ⟨(fun h => by cases h), fun h => absurd h h1⟩
    · exact ⟨(fun h => by cases h), fun h => by omega⟩
    · exact ⟨(fun _ => by omega), fun _ => ⟨_, rfl⟩⟩
    · intro M hM
      injection hM with hM
      subst hM
      exact ⟨hk, by rw [hm]; omega⟩

theorem truthy_eq_false_iff (q : QueryValue) :
    q.truthy = false ↔ q = .undefined ∨ q = .str "" := by
  cases q <;> simp [QueryValue.truthy]

/-- C3: on a matrix produced by a successful load, `/api/fare` answers 400
exactly when `from` or `to` is absent or the empty string; otherwise 404
exactly when `from` or `to` equals no element of `stops`; otherwise it answers
`{from, to, fare}`. -/
theorem fare_status_by_query (toNumber : String → Option ν) (src : Source)
    (M : FareMatrix ν) (f t : QueryValue)
    (hload : loadFareData toNumber src = .ok M) :
    (fareHandler M f t = .badRequest ↔
      (f = .undefined ∨ f = .str "") ∨ (t = .undefined ∨ t = .str "")) ∧
    (fareHandler M f t = .invalidStop ↔
      ¬ ((f = .undefined ∨ f = .str "") ∨ (t = .undefined ∨ t = .str "")) ∧
        ((∀ s, s ∈ M.stops → f ≠ .str s) ∨ (∀ s, s ∈ M.stops → t ≠ .str s))) ∧
    (¬ ((f = .undefined ∨ f = .str "") ∨ (t = .undefined ∨ t = .str "")) →
      (∃ s, s ∈ M.stops ∧ f = .str s) → (∃ s, s ∈ M.stops ∧ t = .str s) →
        ∃ fare, fareHandler M f t = .fareJson f t fare) := by
  have hsq := loadFareData_square toNumber src M hload
  rw [← truthy_eq_false_iff f, ← truthy_eq_false_iff t, ← indexOf_none, ← indexOf_none]
  unfold fareHandler
  cases hf : f.truthy <;> cases ht : t.truthy <;> simp
  cases hi : indexOf M.stops f with
  | none =>
    have hi0 := (indexOf_none _ _).mp hi
    simp
    intro x hx hfx
    exact absurd hfx (hi0 x hx)
  | some i =>
    cases hj : indexOf M.stops t with
    | none =>
      have hj0 := (indexOf_none _ _).mp hj
      simp
      intro _ _ _ y hy
      exact hj0 y hy
    | some j =>
      have hilt : i < M.fares.length := by
        have := indexOf_lt _ _ _ hi
        omega
      simp [List.getElem?_eq_getElem hilt]

/-- Witness of C3: with stops `["A","B"]`, `getFare("A","Z")` is UnknownStop and
`getFare(undefined,"B")` is MissingParameter. -/
theorem fare_status_by_query_witness :
    loadFareData sampleNumber (.workbook [sampleSheet]) = .ok sampleMatrix ∧
    fareHandler sampleMatrix (.str "A") (.str "Z") = .invalidStop ∧
    fareHandler sampleMatrix .undefined (.str "B") = .badRequest :=
  ⟨rfl,
    (fare_status_by_query sampleNumber (.workbook [sampleSheet]) sampleMatrix
      (.str "A") (.str "Z") sampleSheet_loads).2.1.mpr ⟨by decide, Or.inr (by decide)⟩,
    (fare_status_by_query sampleNumber (.workbook [sampleSheet]) sampleMatrix
      .undefined (.str "B") sampleSheet_loads).1.mpr (Or.inl (Or.inl rfl))⟩

/-- Counterexample to C4: `raggedSheet` loads successfully, and the first row of
the returned fares has one entry while there are two stops. -/
theorem squareness_counterexample :
    loadFareData sampleNumber (.workbook [raggedSheet]) = .ok raggedMatrix ∧
    ¬ (raggedMatrix.stops.length = raggedMatrix.fares.length ∧
        ∀ r, r ∈ raggedMatrix.fares → r.length = raggedMatrix.stops.length) :=
  ⟨rfl, by decide⟩

/-- C4 as amended: after a successful load `len(stops) = len(fares)`, and row `r`
of `fares` has as many entries as source row `r + 2` has non-empty cells at
column index > 1; its length is `len(stops)` exactly when that row has as many
such cells as the header row. -/
theorem loaded_shape (toNumber : String → Option ν) (ws : Worksheet)
    (rest : List Worksheet) (M : FareMatrix ν)
    (h : loadFareData toNumber (.workbook (ws :: rest)) = .ok M) :
    M.stops.length = M.fares.length ∧
    ∀ r, r < M.fares.length →
      ∃ row, M.fares[r]? = some row ∧
        row.length = (nonEmptyAfterLabel (ws.getRow (r + 2))).length ∧
        (row.length = M.stops.length ↔
          (nonEmptyAfterLabel (ws.getRow (r + 2))).length
            = (nonEmptyAfterLabel (ws.getRow 1)).length) := by
  obtain ⟨hs, hf, hsq, _⟩ := parseWorksheet_ok toNumber ws M h
  refine ⟨hsq, fun r hr => ?_⟩
  have hr2 : r + 1 < ws.rowCount := by
    rw [hf, extractFares_length] at hr
    omega
  have hrow := extractFares_getElem? toNumber ws r hr2
  refine ⟨rowData toNumber (ws.getRow (r + 2)), by rw [hf]; exact hrow, ?_, ?_⟩
  · simp [rowData_eq]
  · rw [hs, extractStops_length]
    simp [rowData_eq]

/-- Witness of the amended C4 on `raggedSheet`. -/
theorem loaded_shape_witness :
    loadFareData sampleNumber (.workbook [raggedSheet]) = .ok raggedMatrix ∧
    raggedMatrix.stops.length = raggedMatrix.fares.length ∧
    ∀ r, r < raggedMatrix.fares.length →
      ∃ row, raggedMatrix.fares[r]? = some row ∧
        row.length = (nonEmptyAfterLabel (raggedSheet.getRow (r + 2))).length ∧
        (row.length = raggedMatrix.stops.length ↔
          (nonEmptyAfterLabel (raggedSheet.getRow (r + 2))).length
            = (nonEmptyAfterLabel (raggedSheet.getRow 1)).length) :=
  ⟨rfl, loaded_shape sampleNumber raggedSheet [] raggedMatrix rfl⟩

theorem replaceNewlines_getElem? (t : String) (i : Nat) :
    (replaceNewlines t).data[i]? = t.data[i]?.map (fun c => if c = '\n' then ' ' else c) := by
  simp [replaceNewlines, List.getElem?_map]

/-- C5: after a successful load, `stops` is the list, in ascending column order,
of the texts of the non-empty row-1 cells at column index > 1, each with every
newline character replaced by a space and every other character kept in place;
`/api/stops` returns this list. -/
theorem stops_are_header_texts (toNumber : String → Option ν) (ws : Worksheet)
    (rest : List Worksheet) (M : FareMatrix ν)
    (h : loadFareData toNumber (.workbook (ws :: rest)) = .ok M) :
    M.stops = (nonEmptyAfterLabel (ws.getRow 1)).map replaceNewlines ∧
    route M .apiStops = .stopsJson ((nonEmptyAfterLabel (ws.getRow 1)).map replaceNewlines) ∧
    (handleRequest toNumber (.workbook (ws :: rest)) none .apiStops).response
      = .stopsJson ((nonEmptyAfterLabel (ws.getRow 1)).map replaceNewlines) ∧
    ∀ (t : String) (i : Nat),
      (replaceNewlines t).data[i]? = t.data[i]?.map (fun c => if c = '\n' then ' ' else c) := by
  obtain ⟨hs, _, _, _⟩ := parseWorksheet_ok toNumber ws M h
  have hstops : M.stops = (nonEmptyAfterLabel (ws.getRow 1)).map replaceNewlines := by
    rw [hs, extractStops_eq]
  refine ⟨hstops, ?_, ?_, replaceNewlines_getElem?⟩
  · simp [route, stopsHandler, hstops]
  · simp [handleRequest, h, route, stopsHandler, hstops]

/-- Witness of C5: header cells `A`, `B` after the label column give exactly
`["A","B"]`. -/
theorem stops_are_header_texts_witness :
    loadFareData sampleNumber (.workbook [sampleSheet]) = .ok sampleMatrix ∧
    sampleMatrix.stops = ["A", "B"] ∧
    sampleMatrix.stops = (nonEmptyAfterLabel (sampleSheet.getRow 1)).map replaceNewlines :=
  ⟨rfl, rfl,
    (stops_are_header_texts sampleNumber sampleSheet [] sampleMatrix sampleSheet_loads).1⟩

/-- Counterexample to C6: in `emptyNameSheet` (n = 1) every cell of column 2 in
rows 1 and 2 is present and the single header name is trivially distinct; the
load succeeds, the fare cell holds `5`, and the lookup under the header name,
which is the empty string, is answered with 400 instead of the fare. -/
theorem fare_matches_source_cell_counterexample :
    emptyNameSheet.rowCount = 1 + 1 ∧
    emptyNameSheet.cellAt 1 2 = some "" ∧
    emptyNameSheet.cellAt 2 2 = some "5" ∧
    loadFareData sampleNumber (.workbook [emptyNameSheet]) = .ok emptyNameMatrix ∧
    fareHandler emptyNameMatrix (.str (emptyNameSheet.headerName 2))
        (.str (emptyNameSheet.headerName 2)) = .badRequest ∧
    fareHandler emptyNameMatrix (.str (emptyNameSheet.headerName 2))
        (.str (emptyNameSheet.headerName 2))
      ≠ .fareJson (.str (emptyNameSheet.headerName 2)) (.str (emptyNameSheet.headerName 2))
          (some (orZero (sampleNumber (emptyNameSheet.cellText 2 2)))) :=
  ⟨rfl, rfl, rfl, by rfl, by decide, by decide⟩

/-- C6 as amended: for an n × n source (n ≥ 1, `n + 1` rows, no header cell
beyond column `n + 1`) in which every cell of columns 2..n+1 in rows 1..n+1 is
non-empty and the normalised header names are pairwise distinct and are not the
empty string, the load succeeds and `getFare` of header names `a + 1` and
`b + 1` is the numeric coercion of the text of the cell at row `a + 1`, column
`b + 1`. -/
theorem fare_matches_source_cell (toNumber : String → Option ν) (ws : Worksheet)
    (rest : List Worksheet) (n : Nat)
    (hn : 1 ≤ n) (hrows : ws.rowCount = n + 1)
    (hwidth : ∀ c, n + 1 < c → ws.cellAt 1 c = none)
    (hfull : ∀ r c, 1 ≤ r → r ≤ n + 1 → 2 ≤ c → c ≤ n + 1 → ws.cellAt r c ≠ none)
    (hdistinct : ∀ a b, 2 ≤ a → a ≤ n + 1 → 2 ≤ b → b ≤ n + 1 →
      ws.headerName a = ws.headerName b → a = b)
    (hnames : ∀ c, 2 ≤ c → c ≤ n + 1 → ws.headerName c ≠ "") :
    ∃ M, loadFareData toNumber (.workbook (ws :: rest)) = .ok M ∧
      ∀ a b, 1 ≤ a → a ≤ n → 1 ≤ b → b ≤ n →
        fareHandler M (.str (ws.headerName (a + 1))) (.str (ws.headerName (b + 1)))
          = .fareJson (.str (ws.headerName (a + 1))) (.str (ws.headerName (b + 1)))
              (some (orZero (toNumber (ws.cellText (a + 1) (b + 1))))) := by
  have hk : (nonEmptyAfterLabel (ws.getRow 1)).length = n :=
    nonEmptyAfterLabel_length _ n (fun c h1 h2 => hfull 1 c (by omega) (by omega) h1 h2) hwidth
  have hload := parseWorksheet_of_counts toNumber ws (by omega) (by omega)
  refine ⟨_, hload, ?_⟩
  intro a b ha1 han hb1 hbn
  obtain ⟨p, rfl⟩ : ∃ p, a = p + 1 := ⟨a - 1, by omega⟩
  obtain ⟨q, rfl⟩ : ∃ q, b = q + 1 := ⟨b - 1, by omega⟩
  have hstop : ∀ k, k < n → (extractStops ws)[k]? = some (ws.headerName (k + 2)) :=
    fun k hk => extractStops_getElem?_of_full ws k
      (fun c h1 h2 => hfull 1 c (by omega) (by omega) h1 (by omega))
  have hleast : ∀ k, k < n → indexOf (extractStops ws) (.str (ws.headerName (k + 2))) = some k := by
    intro k hk
    refine indexOf_least _ _ _ (hstop k hk) (fun j hj heq => ?_)
    rw [hstop j (by omega)] at heq
    injection heq with heq
    have := hdistinct (j + 2) (k + 2) (by omega) (by omega) (by omega) (by omega) heq
    omega
  have hrow : (extractFares toNumber ws)[p]? = some (rowData toNumber (ws.getRow (p + 2))) :=
    extractFares_getElem? toNumber ws p (by omega)
  have hcell := rowData_getElem?_of_full toNumber ws (p + 2) q
    (fun c h1 h2 => hfull (p + 2) c (by omega) (by omega) h1 (by omega))
  rw [← hcell]
  exact fareHandler_found _ _ _ p q _ (hnames (p + 2) (by omega) (by omega))
    (hnames (q + 2) (by omega) (by omega)) (hleast p (by omega)) (hleast q (by omega)) hrow

/-- Witness of the amended C6 on the 2 × 2 sample table: the fare from `A`
(header column 2) to `B` (header column 3) is the cell at row 2, column 3, and
that cell holds `5`. -/
theorem fare_matches_source_cell_witness :
    (∃ M, loadFareData sampleNumber (.workbook [sampleSheet]) = .ok M ∧
      ∀ a b, 1 ≤ a → a ≤ 2 → 1 ≤ b → b ≤ 2 →
        fareHandler M (.str (sampleSheet.headerName (a + 1)))
            (.str (sampleSheet.headerName (b + 1)))
          = .fareJson (.str (sampleSheet.headerName (a + 1)))
              (.str (sampleSheet.headerName (b + 1)))
              (some (orZero (sampleNumber (sampleSheet.cellText (a + 1) (b + 1)))))) ∧
    sampleSheet.headerName 2 = "A" ∧ sampleSheet.headerName 3 = "B" ∧
    orZero (sampleNumber (sampleSheet.cellText 2 3)) = 5 :=
  ⟨fare_matches_source_cell sampleNumber sampleSheet [] 2 (by decide) rfl sampleSheet_width
      sampleSheet_full sampleSheet_distinct sampleSheet_names,
    by decide, by decide, by decide⟩

/-- Counterexample to C7: in `gapSheet` the data row has an empty cell at column
2 and the text `5` at column 3; the load succeeds and the built row is `[5]`: it
has no entry for the empty cell, its first entry is not `0`, and it is shorter
than the two cells the source row has after the label column. -/
theorem empty_cell_counterexample :
    gapSheet.cellAt 2 2 = none ∧
    gapSheet.cellAt 2 3 = some "5" ∧
    loadFareData sampleNumber (.workbook [gapSheet]) = .ok gapMatrix ∧
    gapMatrix.fares = [[5]] ∧
    (gapMatrix.fares[0]?).bind (fun row => row[0]?) ≠ some 0 ∧
    (gapMatrix.fares[0]?).bind (fun row => row[1]?) = none :=
  ⟨rfl, rfl, by rfl, rfl, by decide, by decide⟩

/-- C7 as amended: an empty cell contributes no entry.  After a successful load
row `r` of `fares` lists, in column order, the coercions of the texts of the
non-empty cells at column index > 1 of source row `r + 2`; removing an empty
cell from a source row leaves the built row unchanged, so the entries to its
right sit one place further left than their columns; and a present cell whose
text does not parse contributes `0`. -/
theorem empty_cells_are_skipped (toNumber : String → Option ν) (ws : Worksheet)
    (rest : List Worksheet) (M : FareMatrix ν)
    (h : loadFareData toNumber (.workbook (ws :: rest)) = .ok M) :
    (∀ r, r < M.fares.length →
      M.fares[r]? = some ((nonEmptyAfterLabel (ws.getRow (r + 2))).map
        (fun t => orZero (toNumber t)))) ∧
    (∀ (label : Cell) (before after : Row),
      rowData toNumber (label :: before ++ none :: after)
        = rowData toNumber (label :: before ++ after)) ∧
    (∀ t, toNumber t = none → orZero (toNumber t) = 0) := by
  obtain ⟨_, hf, _, _⟩ := parseWorksheet_ok toNumber ws M h
  refine ⟨fun r hr => ?_, fun label before after => ?_, fun t ht => ?_⟩
  · have hr2 : r + 1 < ws.rowCount := by
      rw [hf, extractFares_length] at hr
      omega
    rw [hf, extractFares_getElem? toNumber ws r hr2, rowData_eq]
  · simp [rowData_eq, nonEmptyAfterLabel_eq]
  · simp [ht, orZero]

/-- Witness of the amended C7 on `gapSheet`. -/
theorem empty_cells_are_skipped_witness :
    loadFareData sampleNumber (.workbook [gapSheet]) = .ok gapMatrix ∧
    ((∀ r, r < gapMatrix.fares.length →
      gapMatrix.fares[r]? = some ((nonEmptyAfterLabel (gapSheet.getRow (r + 2))).map
        (fun t => orZero (sampleNumber t)))) ∧
    (∀ (label : Cell) (before after : Row),
      rowData sampleNumber (label :: before ++ none :: after)
        = rowData sampleNumber (label :: before ++ after)) ∧
    (∀ t, sampleNumber t = none → orZero (sampleNumber t) = 0)) :=
  ⟨gapSheet_loads, empty_cells_are_skipped sampleNumber gapSheet [] gapMatrix gapSheet_loads⟩

/-- C8: for a non-empty data cell at row `r ≥ 2`, column `c ≥ 2` with text `t`,
the entry of `fares` at row `r - 2` and at the position of that cell is the
number `t` denotes, or `0` when `t` does not parse; and replacing `t` by any
text `u` replaces that one entry by the coercion of `u` and changes nothing
else: the load fails or succeeds as before, with the same error, the same stops
and the same other entries. -/
theorem cell_text_only_sets_its_entry (toNumber : String → Option ν) (ws : Worksheet)
    (rest : List Worksheet) (r c : Nat) (t u : String)
    (hr : 2 ≤ r) (hc : 2 ≤ c) (hcell : ws.cellAt r c = some t) :
    (∀ M, loadFareData toNumber (.workbook (ws :: rest)) = .ok M →
      (M.fares[r - 2]?).bind (fun row => row[entryIndex (ws.getRow r) c]?)
        = some (orZero (toNumber t))) ∧
    (toNumber t = none → orZero (toNumber t) = 0) ∧
    (∀ v, toNumber t = some v → orZero (toNumber t) = v) ∧
    loadFareData toNumber (.workbook (ws.setText r c u :: rest))
      = (loadFareData toNumber (.workbook (ws :: rest))).map
          (fun M => { M with fares := (M.fares.set (r - 2)
            ((M.fares.getD (r - 2) []).set (entryIndex (ws.getRow r) c)
              (orZero (toNumber u)))) }) := by
  have hrow := rowCount_of_cellAt ws r c t (by omega) hcell
  obtain ⟨hset, hget⟩ := rowData_set toNumber (ws.getRow r) c t u hc hcell
  have hfare : (extractFares toNumber ws)[r - 2]? = some (rowData toNumber (ws.getRow r)) := by
    have := extractFares_getElem? toNumber ws (r - 2) (by omega)
    have h2 : r - 2 + 2 = r := by omega
    rwa [h2] at this
  refine ⟨fun M hM => ?_, fun ht => ?_, fun v hv => ?_, ?_⟩
  · obtain ⟨_, hf, _, _⟩ := parseWorksheet_ok toNumber ws M hM
    rw [hf, hfare]
    exact hget
  · simp [ht, orZero]
  · rw [hv]
    by_cases h0 : v = 0 <;> simp [orZero, h0]
  · simp only [loadFareData, parseWorksheet, extractStops_setText ws r c u hr,
      extractFares_setText toNumber ws r c u hr, List.length_set, hset]
    split_ifs
    · rfl
    · rfl
    · simp [Except.map, hfare]

/-- Witness of C8 on the sample table: the cell at row 2, column 3 holds `5`;
with the text `x` in its place the load still succeeds, with the same stops, and
only the entry of that cell changes, to `0`. -/
theorem cell_text_only_sets_its_entry_witness :
    sampleSheet.cellAt 2 3 = some "5" ∧
    loadFareData sampleNumber (.workbook [sampleSheet.setText 2 3 "x"])
      = (loadFareData sampleNumber (.workbook [sampleSheet])).map
          (fun M => { M with fares := (M.fares.set (2 - 2)
            ((M.fares.getD (2 - 2) []).set (entryIndex (sampleSheet.getRow 2) 3)
              (orZero (sampleNumber "x")))) }) ∧
    loadFareData sampleNumber (.workbook [sampleSheetEdited])
      = .ok ⟨["A", "B"], [[0, 0], [7, 0]]⟩ :=
  ⟨rfl,
    (cell_text_only_sets_its_entry sampleNumber sampleSheet [] 2 3 "5" "x"
      (by decide) (by decide) rfl).2.2.2,
    by rfl⟩

/-- C9: once the cache holds a matrix `M`, every request, whatever the file
holds by then, is answered from `M` by the route handlers, makes no call of
`loadFareData` and leaves the cache equal to `M`; this holds along every run of
requests, and two `/api/fare` requests with the same parameters get the same
response. -/
theorem ready_is_terminal (toNumber : String → Option ν) (M : FareMatrix ν) :
    (∀ src req, handleRequest toNumber src (some M) req
      = { cache := some M, response := route M req, loads := 0 }) ∧
    (∀ run : List (Source × Request), serve toNumber (some M) run
      = (some M, run.map (fun p => { cache := some M, response := route M p.2, loads := 0 }))) ∧
    (∀ src1 src2 f t, (handleRequest toNumber src1 (some M) (.apiFare f t)).response
      = (handleRequest toNumber src2 (some M) (.apiFare f t)).response) := by
  refine ⟨fun _ _ => rfl, fun run => ?_, fun _ _ _ _ => rfl⟩
  induction run with
  | nil => rfl
  | cons p rest ih =>
    obtain ⟨src, req⟩ := p
    simp only [serve, handleRequest, List.map_cons]
    rw [ih]

/-- C10: when the cache is empty and `loadFareData` fails, the middleware answers
500 whatever the request is, no route handler produces the response, and the
cache stays empty, so the next request calls `loadFareData` again; and a request
on an empty cache leaves a matrix in the cache only if `loadFareData` returned
that matrix. -/
theorem failed_load_not_cached (toNumber : String → Option ν) (src : Source)
    (e : LoadError) (req : Request)
    (hfail : loadFareData toNumber src = .error e) :
    handleRequest toNumber src none req
      = { cache := none, response := .loadFailed, loads := 1 } ∧
    (∀ src2 req2,
      (handleRequest toNumber src2 (handleRequest toNumber src none req).cache req2).loads = 1) ∧
    (∀ src2 req2 M, (handleRequest toNumber src2 none req2).cache = some M →
      loadFareData toNumber src2 = .ok M) := by
  have hstep : handleRequest toNumber src none req
      = { cache := none, response := .loadFailed, loads := 1 } := by
    simp [handleRequest, hfail]
  refine ⟨hstep, fun src2 req2 => ?_, fun src2 req2 M hM => ?_⟩
  · rw [hstep]
    simp only [handleRequest]
    cases loadFareData toNumber src2 <;> rfl
  · simp only [handleRequest] at hM
    cases hl : loadFareData toNumber src2 with
    | error e2 => simp [hl] at hM
    | ok M2 =>
      simp [hl] at hM
      rw [hM]

/-- Witness of C10: a source with zero data rows fails with EmptyData, an
unreadable file fails with a read error, a table with two stops and one data
row fails with ShapeMismatch, and a request that meets the first of these
failures is answered 500 and leaves the cache empty. -/
theorem failed_load_not_cached_witness :
    loadFareData sampleNumber (.workbook [headerOnlySheet]) = .error .emptyData ∧
    loadFareData sampleNumber .unreadable = .error .readFailed ∧
    loadFareData sampleNumber
        (.workbook [⟨[[some "Shelter", some "A", some "B"], [some "A", some "0", some "5"]]⟩])
      = .error .shapeMismatch ∧
    handleRequest sampleNumber (.workbook [headerOnlySheet]) none .apiStops
      = { cache := none, response := .loadFailed, loads := 1 } :=
  ⟨by rfl, by rfl, by rfl,
    (failed_load_not_cached sampleNumber (.workbook [headerOnlySheet]) .emptyData .apiStops
      (by rfl)).1⟩

/-- C11: a source whose header row has 3 stops and which has 3 data rows, the
second with 2 non-empty cells at column index > 1, loads successfully, and the
second row of the returned fares has length 2, shorter than `len(stops) = 3`.
For every successful load the length of each returned row is the number of
non-empty cells at column index > 1 of its source row, and two sources with the
same header count and the same row count succeed or fail alike, with the same
error. -/
theorem ragged_rows_load (toNumber : String → Option ν) (ws : Worksheet)
    (rest : List Worksheet)
    (hstops : (nonEmptyAfterLabel (ws.getRow 1)).length = 3)
    (hrows : ws.rowCount = 4)
    (hsecond : (nonEmptyAfterLabel (ws.getRow 3)).length = 2) :
    (∃ M, loadFareData toNumber (.workbook (ws :: rest)) = .ok M ∧ M.stops.length = 3 ∧
      ∃ row, M.fares[1]? = some row ∧ row.length = 2 ∧ row.length < M.stops.length) ∧
    (∀ (ws2 : Worksheet) (rest2 : List Worksheet) (M2 : FareMatrix ν),
      loadFareData toNumber (.workbook (ws2 :: rest2)) = .ok M2 →
        ∀ r, r < M2.fares.length →
          ∃ row, M2.fares[r]? = some row ∧
            row.length = (nonEmptyAfterLabel (ws2.getRow (r + 2))).length) ∧
    (∀ (ws1 ws2 : Worksheet) (rest1 rest2 : List Worksheet),
      (nonEmptyAfterLabel (ws1.getRow 1)).length = (nonEmptyAfterLabel (ws2.getRow 1)).length →
      ws1.rowCount = ws2.rowCount →
        ((∃ M, loadFareData toNumber (.workbook (ws1 :: rest1)) = .ok M) ↔
          (∃ M, loadFareData toNumber (.workbook (ws2 :: rest2)) = .ok M)) ∧
        (∀ e, loadFareData toNumber (.workbook (ws1 :: rest1)) = .error e ↔
          loadFareData toNumber (.workbook (ws2 :: rest2)) = .error e)) := by
  refine ⟨?_, fun ws2 rest2 M2 h2 r hr => loaded_row_length toNumber ws2 M2 h2 r hr,
    fun ws1 ws2 rest1 rest2 hk hm => ⟨⟨?_, ?_⟩, fun e => ⟨?_, ?_⟩⟩⟩
  · have hload := parseWorksheet_of_counts toNumber ws (by omega) (by omega)
    have hlen : (extractStops ws).length = 3 := by rw [extractStops_length, hstops]
    obtain ⟨row, hrow, hrowlen⟩ := loaded_row_length toNumber ws _ hload 1
      (by simp [extractFares_length, hrows])
    refine ⟨_, hload, hlen, row, hrow, ?_, ?_⟩
    · rw [hrowlen, hsecond]
    · rw [hrowlen, hsecond]
      show 2 < (extractStops ws).length
      omega
  · exact parseWorksheet_ok_of_counts toNumber ws1 ws2 hk hm
  · exact parseWorksheet_ok_of_counts toNumber ws2 ws1 hk.symm hm.symm
  · exact parseWorksheet_error_of_counts toNumber ws1 ws2 hk hm e
  · exact parseWorksheet_error_of_counts toNumber ws2 ws1 hk.symm hm.symm e

/-- Witness of C11 on `threeStopSheet`: the load succeeds and the second row of
the fares is `[7, 0]`. -/
theorem ragged_rows_load_witness :
    loadFareData sampleNumber (.workbook [threeStopSheet]) = .ok threeStopMatrix ∧
    threeStopMatrix.fares[1]? = some [7, 0] ∧
    (∃ M, loadFareData sampleNumber (.workbook [threeStopSheet]) = .ok M ∧ M.stops.length = 3 ∧
      ∃ row, M.fares[1]? = some row ∧ row.length = 2 ∧ row.length < M.stops.length) :=
  ⟨threeStopSheet_loads, rfl,
    (ragged_rows_load sampleNumber threeStopSheet [] (by decide) (by decide) (by decide)).1⟩

/-- Counterexample to C12: the header text `a\n\nb` holds one maximal run of two
newlines; the load succeeds and the stop name is `a  b`, with two spaces, whereas
collapsing the run to a single space gives `a b`. -/
theorem line_breaks_collapse_counterexample :
    doubleBreakSheet.cellAt 1 2 = some "a\n\nb" ∧
    loadFareData sampleNumber (.workbook [doubleBreakSheet]) = .ok doubleBreakMatrix ∧
    doubleBreakMatrix.stops = ["a  b"] ∧
    collapseLineBreaks "a\n\nb" = "a b" ∧
    replaceNewlines "a\n\nb" ≠ collapseLineBreaks "a\n\nb" :=
  ⟨rfl, by rfl, rfl, by decide, by decide⟩

/-- C12 as amended: every newline character of a header text is replaced by
exactly one space, so a maximal run of `k` newlines appears in the stop name as
`k` spaces and the length of the text is kept; when no two newlines are
adjacent the stop name is the text with its line breaks collapsed to single
spaces; and no stop name of a loaded matrix contains a newline character. -/
theorem newlines_become_spaces (toNumber : String → Option ν) (ws : Worksheet)
    (rest : List Worksheet) (M : FareMatrix ν)
    (h : loadFareData toNumber (.workbook (ws :: rest)) = .ok M) :
    (∀ s, s ∈ M.stops → '\n' ∉ s.data) ∧
    M.stops = (nonEmptyAfterLabel (ws.getRow 1)).map replaceNewlines ∧
    (∀ (before after : List Char) (k : Nat),
      replaceNewlines ⟨before ++ List.replicate k '\n' ++ after⟩
        = ⟨(replaceNewlines ⟨before⟩).data ++ List.replicate k ' '
            ++ (replaceNewlines ⟨after⟩).data⟩) ∧
    (∀ t : String, (replaceNewlines t).data.length = t.data.length) ∧
    (∀ t : String, noAdjacentNewlines t.data = true →
      replaceNewlines t = collapseLineBreaks t) := by
  obtain ⟨hs, _, _, _⟩ := parseWorksheet_ok toNumber ws M h
  have hstops : M.stops = (nonEmptyAfterLabel (ws.getRow 1)).map replaceNewlines := by
    rw [hs, extractStops_eq]
  refine ⟨fun s hmem => ?_, hstops, replaceNewlines_run, fun t => ?_, fun t ht => ?_⟩
  · rw [hstops, List.mem_map] at hmem
    obtain ⟨t, _, rfl⟩ := hmem
    exact replaceNewlines_no_newline t
  · simp [replaceNewlines]
  · unfold replaceNewlines collapseLineBreaks
    rw [collapseFrom_eq_map t.data ht false (fun hf => by cases hf)]

/-- Witness of the amended C12 on `doubleBreakSheet`: the stop name `a  b` holds
no newline. -/
theorem newlines_become_spaces_witness :
    loadFareData sampleNumber (.workbook [doubleBreakSheet]) = .ok doubleBreakMatrix ∧
    (∀ s, s ∈ doubleBreakMatrix.stops → '\n' ∉ s.data) ∧
    replaceNewlines "a\nb" = collapseLineBreaks "a\nb" :=
  ⟨doubleBreakSheet_loads,
    (newlines_become_spaces sampleNumber doubleBreakSheet [] doubleBreakMatrix
      doubleBreakSheet_loads).1,
    by decide⟩

/-- C13: there is a source on which the load succeeds and two names of the loaded
stops such that the column index of the second is not less than the length of
the row of the first; the handler then answers `{from, to, fare}` with `fare`
undefined. -/
theorem ragged_lookup_out_of_range :
    ∃ (src : Source) (M : FareMatrix Int) (a b : String) (i j : Nat) (row : List Int),
      loadFareData sampleNumber src = .ok M ∧ a ∈ M.stops ∧ b ∈ M.stops ∧
      indexOf M.stops (.str a) = some i ∧ indexOf M.stops (.str b) = some j ∧
      M.fares[i]? = some row ∧ row.length ≤ j ∧
      fareHandler M (.str a) (.str b) = .fareJson (.str a) (.str b) none :=
  ⟨.workbook [raggedSheet], raggedMatrix, "A", "B", 0, 1, [0],
    raggedSheet_loads, by decide, by decide, by decide, by decide, rfl, by decide, by decide⟩

/-- C14: for every matrix returned by a successful load, every name that occurs
in `stops` has an index, every index `indexOf` returns is below `len(fares)`, so
the row it selects is defined, and the `/api/fare` handler never raises on
`fares[fromIndex][toIndex]`. -/
theorem row_lookup_in_range (toNumber : String → Option ν) (src : Source)
    (M : FareMatrix ν) (h : loadFareData toNumber src = .ok M) :
    (∀ s, s ∈ M.stops →
      ∃ i, indexOf M.stops (.str s) = some i ∧ i < M.fares.length ∧
        ∃ row, M.fares[i]? = some row) ∧
    (∀ q i, indexOf M.stops q = some i → i < M.fares.length) ∧
    (∀ f t, fareHandler M f t ≠ .typeError) := by
  have hsq := loadFareData_square toNumber src M h
  have hlt : ∀ q i, indexOf M.stops q = some i → i < M.fares.length := by
    intro q i hi
    have := indexOf_lt _ _ _ hi
    omega
  refine ⟨fun s hs => ?_, hlt, fun f t => ?_⟩
  · cases hi : indexOf M.stops (.str s) with
    | none => exact absurd rfl ((indexOf_none _ _).mp hi s hs)
    | some i =>
      exact ⟨i, rfl, hlt _ _ hi, _, List.getElem?_eq_getElem (hlt _ _ hi)⟩
  · unfold fareHandler
    split_ifs
    · intro hbad
      cases hbad
    · cases hi : indexOf M.stops f with
      | none => simp
      | some i =>
        cases hj : indexOf M.stops t with
        | none => simp
        | some j => simp [List.getElem?_eq_getElem (hlt _ _ hi)]

/-- Witness of C14 on the ragged matrix: `A` is found at index 0, which selects a
row, although that row is shorter than the stop list. -/
theorem row_lookup_in_range_witness :
    loadFareData sampleNumber (.workbook [raggedSheet]) = .ok raggedMatrix ∧
    (∀ s, s ∈ raggedMatrix.stops →
      ∃ i, indexOf raggedMatrix.stops (.str s) = some i ∧ i < raggedMatrix.fares.length ∧
        ∃ row, raggedMatrix.fares[i]? = some row) ∧
    fareHandler raggedMatrix (.str "A") (.str "B") ≠ .typeError :=
  ⟨raggedSheet_loads,
    (row_lookup_in_range sampleNumber (.workbook [raggedSheet]) raggedMatrix
      raggedSheet_loads).1,
    by decide⟩

end Claims

end FareServer
